import Mathlib

/-!
# Energy-analysis pipeline: verification of the reconciliation core

A shallow embedding of the Python pipeline (`src/pipeline.py`,
`src/analysis.py`, `config/constants.py`, `dashboards/app.py`) of the
energy-analysis repository, together with proofs and refutations of the
specification's claims about it.

Modelling conventions:
* tables are lists of rows (pandas row order is list order);
* calendar dates are `Int` day numbers; "now" is an explicit `Int` day
  parameter wherever the source calls `datetime.now`;
* numeric cell values are `Option ℚ` (`none` = NaN/null); pandas
  comparisons against NaN are `false`, and `DataFrame.mean(axis=1)`
  skips NaN operands (its default `skipna=True`);
* a missing column or a raised Python exception is an `Except` error.
-/

namespace EnergyPipeline

/-- One master-table row: the `(city, date)` key together with the
kind-specific value map (remaining columns of the pandas frame).
Whole-row equality is structural equality, fields included. -/
structure MRow where
  city : String
  date : Int
  vals : List (String × Option ℚ)
deriving DecidableEq, Repr

/-- The deduplication key used by `drop_duplicates(subset=["city", "date"])`
in `pipeline.py` lines 142 and 183. -/
def lwwKey (r : MRow) : String × Int := (r.city, r.date)

/-- Whether some row of `l` has key `k`. -/
def hasKey (l : List MRow) (k : String × Int) : Bool :=
  l.any (fun s => lwwKey s == k)

/-- pandas `drop_duplicates(subset=["city", "date"], keep="last")`:
a row is kept iff no later row has the same key; kept rows stay in
their original order. -/
def dropDupKeepLast : List MRow → List MRow
  | [] => []
  | r :: rs =>
      if hasKey rs (lwwKey r) then dropDupKeepLast rs
      else r :: dropDupKeepLast rs

/-- The `MasterStore.merge` step: `pipeline.py` lines 141-142 (energy) and 182-183
(weather): concatenate the existing master with the incoming batch, then
drop duplicate `(city, date)` keys keeping the last occurrence. -/
def masterMerge (existing batch : List MRow) : List MRow :=
  dropDupKeepLast (existing ++ batch)

/-- The last row of `l` whose key is `k`, if any (the row "appearing
latest in the concatenated sequence" in the spec's words). -/
def lastWithKey : List MRow → (String × Int) → Option MRow
  | [], _ => none
  | r :: rs, k =>
      match lastWithKey rs k with
      | some s => some s
      | none => if lwwKey r == k then some r else none

theorem hasKey_append (l₁ l₂ : List MRow) (k : String × Int) :
    hasKey (l₁ ++ l₂) k = (hasKey l₁ k || hasKey l₂ k) := by
  simp [hasKey, List.any_append]

theorem mem_of_mem_dropDupKeepLast {r : MRow} :
    ∀ {l : List MRow}, r ∈ dropDupKeepLast l → r ∈ l := by
  intro l
  induction l with
  | nil => simp [dropDupKeepLast]
  | cons x xs ih =>
      cases hc : hasKey xs (lwwKey x) with
      | true =>
          simp only [dropDupKeepLast, hc, if_true]
          intro hr
          exact List.mem_cons_of_mem _ (ih hr)
      | false =>
          simp only [dropDupKeepLast, hc, Bool.false_eq_true, if_false]
          intro hr
          rcases List.mem_cons.mp hr with h1 | h2
          · exact h1 ▸ List.mem_cons_self _ _
          · exact List.mem_cons_of_mem _ (ih h2)

theorem hasKey_of_mem {r : MRow} {l : List MRow} (h : r ∈ l) :
    hasKey l (lwwKey r) = true := by
  simp only [hasKey, List.any_eq_true]
  exact ⟨r, h, by simp⟩

theorem keys_nodup_dropDupKeepLast :
    ∀ l : List MRow, ((dropDupKeepLast l).map lwwKey).Nodup := by
  intro l
  induction l with
  | nil => simp [dropDupKeepLast]
  | cons x xs ih =>
      cases hc : hasKey xs (lwwKey x) with
      | true => simpa only [dropDupKeepLast, hc, if_true] using ih
      | false =>
          simp only [dropDupKeepLast, hc, Bool.false_eq_true, if_false,
            List.map_cons, List.nodup_cons]
          refine ⟨?_, ih⟩
          intro hmem
          rcases List.mem_map.mp hmem with ⟨s, hs, hkey⟩
          have hs' : s ∈ xs := mem_of_mem_dropDupKeepLast hs
          have hk : hasKey xs (lwwKey x) = true := by
            simp only [hasKey, List.any_eq_true]
            exact ⟨s, hs', by simp [hkey]⟩
          rw [hc] at hk
          exact Bool.false_ne_true hk

theorem dropDupKeepLast_eq_self {l : List MRow}
    (h : (l.map lwwKey).Nodup) : dropDupKeepLast l = l := by
  induction l with
  | nil => rfl
  | cons x xs ih =>
      simp only [List.map_cons, List.nodup_cons] at h
      have hk : hasKey xs (lwwKey x) = false := by
        cases hc : hasKey xs (lwwKey x) with
        | false => rfl
        | true =>
            exfalso
            simp only [hasKey, List.any_eq_true] at hc
            rcases hc with ⟨s, hs, he⟩
            have he' : lwwKey s = lwwKey x := by simpa using he
            exact h.1 (List.mem_map.mpr ⟨s, hs, he'⟩)
      simp only [dropDupKeepLast, hk, Bool.false_eq_true, if_false]
      rw [ih h.2]

theorem dropDupKeepLast_append (l₁ l₂ : List MRow) :
    dropDupKeepLast (l₁ ++ l₂) =
      (dropDupKeepLast l₁).filter (fun r => !hasKey l₂ (lwwKey r))
        ++ dropDupKeepLast l₂ := by
  induction l₁ with
  | nil => simp [dropDupKeepLast]
  | cons x xs ih =>
      rw [List.cons_append, dropDupKeepLast, dropDupKeepLast, hasKey_append]
      cases h1 : hasKey xs (lwwKey x) with
      | true => simp [ih]
      | false =>
          cases h2 : hasKey l₂ (lwwKey x) with
          | true => simp [ih, h2, List.filter_cons]
          | false => simp [ih, h2, List.filter_cons]

theorem filter_not_hasKey_dropDupKeepLast (l : List MRow) :
    (dropDupKeepLast l).filter (fun r => !hasKey l (lwwKey r)) = [] := by
  apply List.filter_eq_nil_iff.mpr
  intro r hr
  have := hasKey_of_mem (mem_of_mem_dropDupKeepLast hr)
  simp [this]

theorem lastWithKey_eq_some {s : MRow} {k : String × Int} :
    ∀ {l : List MRow}, lastWithKey l k = some s → s ∈ l ∧ lwwKey s = k := by
  intro l
  induction l with
  | nil => simp [lastWithKey]
  | cons x xs ih =>
      simp only [lastWithKey]
      cases hxs : lastWithKey xs k with
      | some t =>
          intro h
          have hts : t = s := by injection h
          subst hts
          have ht := ih hxs
          exact ⟨List.mem_cons_of_mem _ ht.1, ht.2⟩
      | none =>
          cases hk : (lwwKey x == k) with
          | true =>
              simp only [hk, if_true]
              intro h
              have hxsx : x = s := by injection h
              subst hxsx
              exact ⟨List.mem_cons_self _ _, by simpa using hk⟩
          | false => simp [hk]

theorem lastWithKey_eq_none_of_not_hasKey {k : String × Int} :
    ∀ {l : List MRow}, hasKey l k = false → lastWithKey l k = none := by
  intro l
  induction l with
  | nil => intro _; rfl
  | cons x xs ih =>
      intro h
      simp only [hasKey, List.any_cons, Bool.or_eq_false_iff] at h
      have h2 : hasKey xs k = false := h.2
      simp only [lastWithKey, ih h2]
      simp [h.1]

theorem lastWithKey_of_mem_dropDupKeepLast {r : MRow} :
    ∀ {l : List MRow}, r ∈ dropDupKeepLast l →
      lastWithKey l (lwwKey r) = some r := by
  intro l
  induction l with
  | nil => simp [dropDupKeepLast]
  | cons x xs ih =>
      simp only [dropDupKeepLast]
      by_cases h : hasKey xs (lwwKey x) = true
      · simp only [h, if_true]
        intro hr
        have hxs := ih hr
        simp only [lastWithKey, hxs]
      · simp only [h, if_false]
        intro hr
        rcases List.mem_cons.mp hr with h1 | h2
        · subst h1
          have hk : hasKey xs (lwwKey r) = false := by
            revert h; cases hasKey xs (lwwKey r) <;> simp
          have hnone := lastWithKey_eq_none_of_not_hasKey hk
          simp [lastWithKey, hnone]
        · have hxs := ih h2
          simp only [lastWithKey, hxs]

theorem hasKey_cons (x : MRow) (l : List MRow) (k : String × Int) :
    hasKey (x :: l) k = ((lwwKey x == k) || hasKey l k) := rfl

theorem hasKey_dropDupKeepLast (l : List MRow) (k : String × Int) :
    hasKey (dropDupKeepLast l) k = hasKey l k := by
  induction l with
  | nil => rfl
  | cons x xs ih =>
      cases hc : hasKey xs (lwwKey x) with
      | true =>
          simp only [dropDupKeepLast, hc, if_true, ih]
          cases hk : (lwwKey x == k) with
          | true =>
              have hkk : lwwKey x = k := by simpa using hk
              subst hkk
              rw [hc, hasKey_cons, hc]
              simp
          | false => rw [hasKey_cons, hk, Bool.false_or]
      | false =>
          simp only [dropDupKeepLast, hc, Bool.false_eq_true, if_false]
          rw [hasKey_cons, hasKey_cons, ih]

/-- Claim C1: `MasterStore.merge` (concat + `drop_duplicates(subset=["city",
"date"], keep="last")`, `pipeline.py` lines 141-142 / 182-183) leaves at most
one row per `(city, date)` key, and every surviving row is, in every field,
exactly the row appearing latest in the concatenated sequence with that key;
every key of the concatenated input is still represented. -/
theorem masterMerge_last_write_wins (existing batch : List MRow) :
    ((masterMerge existing batch).map lwwKey).Nodup ∧
    (∀ r ∈ masterMerge existing batch,
        lastWithKey (existing ++ batch) (lwwKey r) = some r) ∧
    (∀ r ∈ existing ++ batch,
        hasKey (masterMerge existing batch) (lwwKey r) = true) := by
  refine ⟨keys_nodup_dropDupKeepLast _, ?_, ?_⟩
  · intro r hr
    exact lastWithKey_of_mem_dropDupKeepLast hr
  · intro r hr
    rw [masterMerge, hasKey_dropDupKeepLast]
    exact hasKey_of_mem hr

/-- A stale master row and its replacement: same `(city, date)` key,
different demand value. -/
def rowOld : MRow := ⟨"New York", 0, [("energy_demand_MW", some 1)]⟩

/-- See `rowOld`. -/
def rowNew : MRow := ⟨"New York", 0, [("energy_demand_MW", some 2)]⟩

/-- Witness for claim C1 at a concrete overlap: merging a one-row batch
over a one-row master with the same key keeps exactly the batch row. -/
theorem masterMerge_last_write_wins_witness :
    ((masterMerge [rowOld] [rowNew]).map lwwKey).Nodup ∧
    lastWithKey ([rowOld] ++ [rowNew]) (lwwKey rowNew) = some rowNew := by
  obtain ⟨h1, h2, _⟩ := masterMerge_last_write_wins [rowOld] [rowNew]
  refine ⟨h1, h2 rowNew ?_⟩
  decide

/-- Claim C2: merging the same batch twice yields the same master snapshot
as merging it once (idempotence, no duplication, no row drift). -/
theorem masterMerge_idempotent (existing batch : List MRow) :
    masterMerge (masterMerge existing batch) batch
      = masterMerge existing batch := by
  show dropDupKeepLast (dropDupKeepLast (existing ++ batch) ++ batch)
      = dropDupKeepLast (existing ++ batch)
  rw [dropDupKeepLast_append (dropDupKeepLast (existing ++ batch)) batch,
    dropDupKeepLast_eq_self (keys_nodup_dropDupKeepLast (existing ++ batch))]
  conv_lhs => rw [dropDupKeepLast_append existing batch]
  rw [List.filter_append, List.filter_filter,
    filter_not_hasKey_dropDupKeepLast batch, List.append_nil,
    dropDupKeepLast_append existing batch]
  simp

/-- One energy-master row as consumed by the joins: the `(date, city)` key
of `pd.merge(..., on=["date", "city"], how="inner")` (`pipeline.py` line
213) plus the energy payload. `timezone` is carried because the dashboard's
fallback merge (`dashboards/app.py` lines 142-147) also joins on it. -/
structure ERow where
  date : Int
  city : String
  timezone : String
  energy_demand_MW : Option ℚ
deriving DecidableEq, Repr

/-- One weather-master row as consumed by the joins. -/
structure WRow where
  date : Int
  city : String
  timezone : String
  temp_max_F : Option ℚ
  temp_min_F : Option ℚ
  precipitation : Option ℚ
deriving DecidableEq, Repr

/-- The `(date, city)` join key of `pipeline.py` line 206. -/
def eKey (e : ERow) : Int × String := (e.date, e.city)

/-- The `(date, city)` join key, weather side. -/
def wKey (w : WRow) : Int × String := (w.date, w.city)

def hasEKey (l : List ERow) (k : Int × String) : Bool :=
  l.any (fun e => eKey e == k)

def hasWKey (l : List WRow) (k : Int × String) : Bool :=
  l.any (fun w => wKey w == k)

/-- The pipeline join `pd.merge(combined_energy, combined_weather, on=["date", "city"],
how="inner")` (`pipeline.py` line 213): for each left row in order, one
output row per matching right row. -/
def innerJoin (energy : List ERow) (weather : List WRow) :
    List (ERow × WRow) :=
  energy.flatMap (fun e =>
    (weather.filter (fun w => wKey w == eKey e)).map (fun w => (e, w)))

/-- The weather rows matched by the dashboard's fallback merge, which joins
`on=["date", "city", "timezone"]` (`dashboards/app.py` line 145). -/
def appLeftMatches (weather : List WRow) (e : ERow) : List WRow :=
  weather.filter (fun w =>
    (w.date == e.date) && (w.city == e.city) && (w.timezone == e.timezone))

/-- The dashboard fallback merge `pd.merge(energy_df, weather_df, on=["date", "city", "timezone"],
how="left")` (`dashboards/app.py` lines 142-147): every energy row is
emitted; with no match the weather side is null, otherwise one output row
per matching weather row. -/
def leftJoinApp (energy : List ERow) (weather : List WRow) :
    List (ERow × Option WRow) :=
  energy.flatMap (fun e =>
    if appLeftMatches weather e = [] then [(e, none)]
    else (appLeftMatches weather e).map (fun w => (e, some w)))

/-- Modelled from the spec: the left-on-energy join mode as the claim
words it, keyed on `(date, city)` only — "every energy row emitted,
weather fields null-filled when absent". Used to compare the dashboard's
actual key set against the claimed one. -/
def leftJoinSpecModel (energy : List ERow) (weather : List WRow) :
    List (ERow × Option WRow) :=
  energy.flatMap (fun e =>
    if weather.filter (fun w => wKey w == eKey e) = [] then [(e, none)]
    else (weather.filter (fun w => wKey w == eKey e)).map (fun w => (e, some w)))

theorem filter_wKey_length_of_nodup {W : List WRow} {k : Int × String}
    (h : (W.map wKey).Nodup) :
    (W.filter (fun w => wKey w == k)).length
      = if hasWKey W k then 1 else 0 := by
  induction W with
  | nil => simp [hasWKey]
  | cons w ws ih =>
      simp only [List.map_cons, List.nodup_cons] at h
      rw [List.filter_cons]
      cases hw : (wKey w == k) with
      | true =>
          have hk : wKey w = k := by simpa using hw
          have hnone : hasWKey ws k = false := by
            cases hc : hasWKey ws k with
            | false => rfl
            | true =>
                exfalso
                simp only [hasWKey, List.any_eq_true] at hc
                rcases hc with ⟨w', hw', he⟩
                have : wKey w' = wKey w := by
                  rw [hk]; simpa using he
                exact h.1 (List.mem_map.mpr ⟨w', hw', this⟩)
          have hlen : (ws.filter (fun w => wKey w == k)).length = 0 := by
            rw [ih h.2, hnone]; simp
          have hkk : hasWKey (w :: ws) k = true := by
            simp [hasWKey, hw]
          simp only [hw, if_true, List.length_cons, hlen, hkk]
      | false =>
          have hkk : hasWKey (w :: ws) k = hasWKey ws k := by
            simp [hasWKey, List.any_cons, hw]
          simp only [hw, Bool.false_eq_true, if_false]
          rw [ih h.2, hkk]

theorem countP_map_pair (e : ERow) (l : List WRow) (k : Int × String) :
    ((l.map (fun w => (e, w))).countP (fun p => eKey p.1 == k))
      = if eKey e == k then l.length else 0 := by
  induction l with
  | nil => simp
  | cons w ws ih =>
      simp only [List.map_cons, List.countP_cons, ih]
      cases hek : (eKey e == k) with
      | true => simp [hek]
      | false => simp [hek]

theorem innerJoin_cons (e : ERow) (E : List ERow) (W : List WRow) :
    innerJoin (e :: E) W
      = (W.filter (fun w => wKey w == eKey e)).map (fun w => (e, w))
          ++ innerJoin E W := by
  simp [innerJoin]

theorem innerJoin_key_count (E : List ERow) (W : List WRow)
    (k : Int × String) (hE : (E.map eKey).Nodup) (hW : (W.map wKey).Nodup) :
    (innerJoin E W).countP (fun p => eKey p.1 == k)
      = if (hasEKey E k && hasWKey W k) then 1 else 0 := by
  induction E with
  | nil => simp [innerJoin, hasEKey]
  | cons e E' ih =>
      simp only [List.map_cons, List.nodup_cons] at hE
      rw [innerJoin_cons, List.countP_append, countP_map_pair]
      cases hek : (eKey e == k) with
      | true =>
          have hkeq : eKey e = k := by simpa using hek
          have hE' : hasEKey E' k = false := by
            cases hc : hasEKey E' k with
            | false => rfl
            | true =>
                exfalso
                simp only [hasEKey, List.any_eq_true] at hc
                rcases hc with ⟨e', he', hee⟩
                have : eKey e' = eKey e := by
                  rw [hkeq]; simpa using hee
                exact hE.1 (List.mem_map.mpr ⟨e', he', this⟩)
          have htail : (innerJoin E' W).countP (fun p => eKey p.1 == k) = 0 := by
            rw [ih hE.2, hE']
            simp
          have hhead : hasEKey (e :: E') k = true := by
            simp [hasEKey, hek]
          rw [htail, hhead]
          simp only [hkeq]
          rw [filter_wKey_length_of_nodup hW]
          cases hwk : hasWKey W k <;> simp
      | false =>
          have hhead : hasEKey (e :: E') k = hasEKey E' k := by
            simp [hasEKey, List.any_cons, hek]
          simp only [Bool.false_eq_true, if_false, Nat.zero_add]
          rw [ih hE.2, hhead]

theorem leftJoinApp_emits_all {e : ERow} {E : List ERow}
    (W : List WRow) (he : e ∈ E) :
    ∃ ow, (e, ow) ∈ leftJoinApp E W := by
  cases hm : appLeftMatches W e with
  | nil =>
      refine ⟨none, ?_⟩
      simp only [leftJoinApp, List.mem_flatMap]
      exact ⟨e, he, by simp [hm]⟩
  | cons w ws =>
      refine ⟨some w, ?_⟩
      simp only [leftJoinApp, List.mem_flatMap]
      refine ⟨e, he, ?_⟩
      rw [hm]
      simp

theorem appLeftMatches_nil_of_no_key {W : List WRow} {e : ERow}
    (h : hasWKey W (eKey e) = false) : appLeftMatches W e = [] := by
  apply List.filter_eq_nil_iff.mpr
  intro w hw
  cases hd : (w.date == e.date) with
  | false => simp [hd]
  | true =>
      cases hc : (w.city == e.city) with
      | false => simp [hd, hc]
      | true =>
          exfalso
          have : hasWKey W (eKey e) = true := by
            simp only [hasWKey, List.any_eq_true]
            refine ⟨w, hw, ?_⟩
            have h1 : w.date = e.date := by simpa using hd
            have h2 : w.city = e.city := by simpa using hc
            simp [wKey, eKey, h1, h2]
          rw [h] at this
          exact Bool.false_ne_true this

/-- Claim C6 (amended): the pipeline's join (`pipeline.py` line 213) is an
inner join on `(date, city)`: given key-unique masters it emits exactly one
row per key present in both and none otherwise.  The repository's
left-on-energy join is the dashboard fallback (`dashboards/app.py` lines
142-147); it emits every energy row, but is keyed on
`(date, city, timezone)`, so the weather side is null-filled whenever no
row matches all three — in particular whenever the weather master lacks the
`(date, city)` key. -/
theorem join_modes (E : List ERow) (W : List WRow) :
    (∀ k : Int × String, (E.map eKey).Nodup → (W.map wKey).Nodup →
      (innerJoin E W).countP (fun p => eKey p.1 == k)
        = if (hasEKey E k && hasWKey W k) then 1 else 0) ∧
    (∀ e ∈ E, ∃ ow, (e, ow) ∈ leftJoinApp E W) ∧
    (∀ e ∈ E, hasWKey W (eKey e) = false → (e, none) ∈ leftJoinApp E W) := by
  refine ⟨fun k hE hW => innerJoin_key_count E W k hE hW,
    fun e he => leftJoinApp_emits_all W he, fun e he hk => ?_⟩
  simp only [leftJoinApp, List.mem_flatMap]
  exact ⟨e, he, by simp [appLeftMatches_nil_of_no_key hk]⟩

/-- A concrete energy row for the join examples. -/
def eNY : ERow := ⟨0, "New York", "America/New_York", some 20000⟩

/-- A weather row sharing `eNY`'s `(date, city)` key but not its timezone
string. -/
def wNY : WRow := ⟨0, "New York", "Unknown", some 70, some 50, some 0⟩

/-- A weather row agreeing with `eNY` on all three dashboard key columns. -/
def wNY' : WRow := ⟨0, "New York", "America/New_York", some 70, some 50, some 0⟩

/-- Witness for claim C6 at concrete inputs: one common `(date, city)` key
gives exactly one inner row; the left join emits the energy row, and
null-fills it when the weather master is empty. -/
theorem join_modes_witness :
    (innerJoin [eNY] [wNY']).countP (fun p => eKey p.1 == ((0 : Int), "New York"))
      = 1 ∧
    (∃ ow, (eNY, ow) ∈ leftJoinApp [eNY] [wNY']) ∧
    (eNY, none) ∈ leftJoinApp [eNY] [] := by
  obtain ⟨h1, h2, h3⟩ := join_modes [eNY] [wNY']
  obtain ⟨-, -, h3'⟩ := join_modes [eNY] []
  refine ⟨?_, h2 eNY (by decide), h3' eNY (by decide) (by decide)⟩
  rw [h1 ((0 : Int), "New York") (by decide) (by decide)]
  decide

/-- Counterexample to claim C6 as stated: the repository's only
left-on-energy join is keyed on `(date, city, timezone)`, not on
`(date, city)`.  With a weather row that shares the energy row's
`(date, city)` key but not its timezone, the dashboard join null-fills the
weather fields although the weather master does contain the `(date, city)`
key, and its output differs from the `(date, city)`-keyed left join the
claim describes. -/
theorem join_modes_counterexample :
    hasWKey [wNY] (eKey eNY) = true ∧
    leftJoinApp [eNY] [wNY] = [(eNY, none)] ∧
    leftJoinSpecModel [eNY] [wNY] = [(eNY, some wNY)] ∧
    leftJoinApp [eNY] [wNY] ≠ leftJoinSpecModel [eNY] [wNY] := by
  refine ⟨by decide, by decide, by decide, ?_⟩
  intro h
  have h1 : leftJoinApp [eNY] [wNY] = [(eNY, none)] := by decide
  have h2 : leftJoinSpecModel [eNY] [wNY] = [(eNY, some wNY)] := by decide
  rw [h1, h2] at h
  have := List.head_eq_of_cons_eq h
  exact absurd (congrArg Prod.snd this) (by decide)

/-- Row-level `merged_df[["temp_max_F", "temp_min_F"]].mean(axis=1)`
(`pipeline.py` line 233).  pandas `DataFrame.mean(axis=1)` averages the
non-NaN entries of each row (its default is `skipna=True`), so the result
is NaN only when every operand is NaN. -/
def temp_avg_of (tmax tmin : Option ℚ) : Option ℚ :=
  match tmax, tmin with
  | none, none => none
  | some a, none => some a
  | none, some b => some b
  | some a, some b => some ((a + b) / 2)

/-- Row-level `merged_df["weather_available"] = merged_df["temp_avg"].notna()`
(`pipeline.py` line 235), at row level. -/
def weather_available_of (tmax tmin : Option ℚ) : Bool :=
  (temp_avg_of tmax tmin).isSome

/-- Modelled from the spec: `temp_avg` as the claim words it — the mean of
the two temperatures, null as soon as either operand is null. -/
def temp_avg_claim (tmax tmin : Option ℚ) : Option ℚ :=
  match tmax, tmin with
  | some a, some b => some ((a + b) / 2)
  | _, _ => none

/-- Counterexample to claim C3 as stated: with `temp_max_F = 70` and
`temp_min_F` null, the code's row mean skips the NaN operand and yields
`70`, not null, and `weather_available` is `true`; the claim's reading
would yield null and `false`. -/
theorem temp_avg_counterexample :
    temp_avg_of (some 70) none = some 70 ∧
    weather_available_of (some 70) none = true ∧
    temp_avg_claim (some 70) none = none ∧
    temp_avg_of (some 70) none ≠ temp_avg_claim (some 70) none := by
  refine ⟨rfl, rfl, rfl, ?_⟩
  intro h
  simp [temp_avg_of, temp_avg_claim] at h

/-- Claim C3 (amended): `temp_avg` is the mean of the non-null operands —
the two-point mean when both temperatures are present, the single value
when exactly one is, and null exactly when both are null — and
`weather_available` is true exactly when at least one temperature operand
is non-null (equivalently, when `temp_avg` is non-null). -/
theorem temp_avg_spec (tmax tmin : Option ℚ) :
    (∀ a b, tmax = some a → tmin = some b →
        temp_avg_of tmax tmin = some ((a + b) / 2)) ∧
    (tmin = none → temp_avg_of tmax tmin = tmax) ∧
    (tmax = none → temp_avg_of tmax tmin = tmin) ∧
    (temp_avg_of tmax tmin = none ↔ (tmax = none ∧ tmin = none)) ∧
    (weather_available_of tmax tmin = (tmax.isSome || tmin.isSome)) ∧
    (weather_available_of tmax tmin = (temp_avg_of tmax tmin).isSome) := by
  cases tmax <;> cases tmin <;>
    simp [temp_avg_of, weather_available_of]

/-- Witness for claim C3: `(temp_max_F = 70, temp_min_F = 50)` gives
`temp_avg = 60` and `weather_available = true`. -/
theorem temp_avg_spec_witness :
    temp_avg_of (some 70) (some 50) = some 60 ∧
    weather_available_of (some 70) (some 50) = true := by
  obtain ⟨h1, -, -, -, h5, -⟩ := temp_avg_spec (some 70) (some 50)
  constructor
  · rw [h1 70 50 rfl rfl]; norm_num
  · rw [h5]; rfl

/-- The table `CITY_TIMEZONE_MAP` (`config/constants.py` lines 1-7). -/
def CITY_TIMEZONE_MAP : List (String × String) :=
  [("New York", "America/New_York"),
   ("Chicago", "America/Chicago"),
   ("Houston", "America/Chicago"),
   ("Phoenix", "America/Phoenix"),
   ("Seattle", "America/Los_Angeles")]

/-- The table `CITY_COORDS_MAP` (`config/constants.py` lines 9-15); each city maps to
its `lat`/`lon` entry map. -/
def CITY_COORDS_MAP : List (String × List (String × ℚ)) :=
  [("New York", [("lat", 40.7128), ("lon", -74.0060)]),
   ("Chicago", [("lat", 41.8781), ("lon", -87.6298)]),
   ("Houston", [("lat", 29.7604), ("lon", -95.3698)]),
   ("Phoenix", [("lat", 33.4484), ("lon", -112.0740)]),
   ("Seattle", [("lat", 47.6062), ("lon", -122.3321)])]

/-- Python `str.strip()` over the characters of `s`. -/
def pyStrip (s : String) : String :=
  let l := s.toList.dropWhile Char.isWhitespace
  String.mk ((l.reverse.dropWhile Char.isWhitespace).reverse)

/-- The character transformation of Python `str.title()`: an alphabetic
character is uppercased when the previous character is not alphabetic and
lowercased otherwise; other characters pass through. -/
def titleChars : Bool → List Char → List Char
  | _, [] => []
  | prevAlpha, c :: cs =>
      (if c.isAlpha then (if prevAlpha then c.toLower else c.toUpper) else c)
        :: titleChars c.isAlpha cs

/-- Python `str.title()`. -/
def pyTitle (s : String) : String := String.mk (titleChars false s.toList)

/-- Source `clean_city_name` (`pipeline.py` lines 33-35):
`city_name.strip().title() if city_name else "Unknown"`.  The Python
argument is falsy when it is `None` or the empty string. -/
def clean_city_name (city_name : Option String) : String :=
  match city_name with
  | none => "Unknown"
  | some s => if s = "" then "Unknown" else pyTitle (pyStrip s)

/-- The lookup `CITY_TIMEZONE_MAP.get(city_name, "Unknown")` (`pipeline.py` line 94). -/
def cityTimezone (city_name : String) : String :=
  (CITY_TIMEZONE_MAP.lookup city_name).getD "Unknown"

/-- Source `get_coord` (`pipeline.py` lines 238-242):
`CITY_COORDS_MAP.get(city, {})` followed by `.get(coord_type)`; in this
typed model the looked-up value is always an entry map, so the
`isinstance(city_data, dict)` guard of the source is always satisfied. -/
def get_coord (city coord_type : String) : Option ℚ :=
  ((CITY_COORDS_MAP.lookup city).getD []).lookup coord_type

/-- Claim C9: `clean_city_name` trims and title-cases
(`" new york "` becomes `"New York"`), maps empty or absent input to
`"Unknown"`, and the static metadata lookups degrade to `"Unknown"` /
null coordinates for cities outside the tables instead of failing. -/
theorem city_normalizer_spec :
    clean_city_name (some " new york ") = "New York" ∧
    clean_city_name none = "Unknown" ∧
    clean_city_name (some "") = "Unknown" ∧
    (∀ s : String, s ≠ "" →
        clean_city_name (some s) = pyTitle (pyStrip s)) ∧
    (∀ c : String, CITY_TIMEZONE_MAP.lookup c = none →
        cityTimezone c = "Unknown") ∧
    (∀ c : String, CITY_COORDS_MAP.lookup c = none →
        get_coord c "lat" = none ∧ get_coord c "lon" = none) := by
  refine ⟨by decide, rfl, rfl, ?_, ?_, ?_⟩
  · intro s hs
    simp [clean_city_name, hs]
  · intro c h
    simp [cityTimezone, h]
  · intro c h
    simp [get_coord, h]

/-- Witness for claim C9 at the unmapped city `"Atlantis"`. -/
theorem city_normalizer_spec_witness :
    clean_city_name (some "atlantis") = pyTitle (pyStrip "atlantis") ∧
    cityTimezone "Atlantis" = "Unknown" ∧
    get_coord "Atlantis" "lat" = none ∧
    get_coord "Atlantis" "lon" = none := by
  obtain ⟨-, -, -, h4, h5, h6⟩ := city_normalizer_spec
  exact ⟨h4 "atlantis" (by decide), h5 "Atlantis" (by decide),
    (h6 "Atlantis" (by decide)).1, (h6 "Atlantis" (by decide)).2⟩

/-- A pandas column as seen by `analysis.py`: a numeric column (cells
`none` = NaN) or a datetime column (cells `none` = NaT; values are day
numbers).  `is_numeric_dtype` is true exactly for the first constructor.
String-valued columns do not occur in the tables the quality claims range
over and are omitted. -/
inductive Col where
  | numeric (vals : List (Option ℚ))
  | dates (vals : List (Option Int))
deriving DecidableEq, Repr

/-- A pandas DataFrame for `analysis.py`: a row count and named columns
(each column's value list has `nRows` entries in a well-formed frame). -/
structure Table where
  nRows : Nat
  cols : List (String × Col)
deriving DecidableEq, Repr

/-- Column access, `col in df.columns` / `df[col]`. -/
def Table.col? (df : Table) (c : String) : Option Col := df.cols.lookup c

/-- Per-column null count, `df[col].isnull().sum()`. -/
def colNullCount : Col → Nat
  | .numeric vs => (vs.filter (fun v => v.isNone)).length
  | .dates vs => (vs.filter (fun v => v.isNone)).length

/-- Source `check_missing_values` (`analysis.py` lines 6-10): the number of
missing values per column. -/
def check_missing_values (df : Table) : List (String × Nat) :=
  df.cols.map (fun p => (p.1, colNullCount p.2))

/-- The pandas mask `(df[col] > 130) | (df[col] < -50)` at cell level
(`analysis.py` line 24); comparisons against NaN are false. -/
def isTempRuleOutlier : Option ℚ → Bool
  | some x => decide (x > 130) || decide (x < -50)
  | none => false

/-- The pandas mask `df[energy_col] < 0` at cell level
(`analysis.py` line 33). -/
def isNegDemand : Option ℚ → Bool
  | some x => decide (x < 0)
  | none => false

/-- A value of the `outliers` dict: a row count or one of the sentinel
strings of `analysis.py` lines 26, 28, 35, 37. -/
inductive OutlierVal where
  | count (n : Nat)
  | msg (s : String)
deriving DecidableEq, Repr

/-- One temperature-column entry of the `detect_outliers` loop
(`analysis.py` lines 21-28). -/
def tempOutlierEntry (df : Table) (col : String) : OutlierVal :=
  match df.col? col with
  | none => .msg "Column not found"
  | some (.numeric vs) => .count ((vs.filter isTempRuleOutlier).length)
  | some _ => .msg ("Column " ++ col ++ " is not numeric")

/-- The energy-column entry of `detect_outliers`
(`analysis.py` lines 31-37). -/
def energyOutlierEntry (df : Table) (col : String) : OutlierVal :=
  match df.col? col with
  | none => .msg "Column not found"
  | some (.numeric vs) => .count ((vs.filter isNegDemand).length)
  | some _ => .msg ("Column " ++ col ++ " is not numeric")

/-- Python dict access `d[k]` over the association-list model of a dict. -/
def dictLookup (d : List (String × OutlierVal)) (k : String) :
    Option OutlierVal :=
  match d with
  | [] => none
  | p :: ps => if p.1 = k then some p.2 else dictLookup ps k

/-- Python dict assignment `d[k] = v`: replace in place when the key
exists, append otherwise. -/
def dictInsert (d : List (String × OutlierVal)) (k : String)
    (v : OutlierVal) : List (String × OutlierVal) :=
  if d.any (fun p => p.1 == k) then
    d.map (fun p => if p.1 == k then (k, v) else p)
  else d ++ [(k, v)]

/-- Source `detect_outliers` (`analysis.py` lines 13-39): fill the dict with one
entry per temperature column, then the energy-column entry. -/
def detect_outliers (df : Table) (temp_cols : List String)
    (energy_col : String) : List (String × OutlierVal) :=
  dictInsert
    (temp_cols.foldl (fun d col => dictInsert d col (tempOutlierEntry df col)) [])
    energy_col (energyOutlierEntry df energy_col)

theorem dictLookup_map_replace (d : List (String × OutlierVal)) (k : String)
    (v : OutlierVal) (h : d.any (fun p => p.1 == k) = true) :
    dictLookup (d.map (fun p => if p.1 == k then (k, v) else p)) k
      = some v := by
  induction d with
  | nil => simp at h
  | cons p ps ih =>
      simp only [List.any_cons, Bool.or_eq_true] at h
      by_cases hp : p.1 = k
      · simp [dictLookup, hp]
      · have hpb : (p.1 == k) = false := by simpa using hp
        have h2 : ps.any (fun p => p.1 == k) = true := by
          rcases h with h1 | h1
          · rw [hpb] at h1; cases h1
          · exact h1
        simp only [List.map_cons, hpb, Bool.false_eq_true, if_false]
        simp only [dictLookup, hp, if_false]
        exact ih h2

theorem dictLookup_eq_none_of_any_false (d : List (String × OutlierVal))
    (k : String) (h : d.any (fun p => p.1 == k) = false) :
    dictLookup d k = none := by
  induction d with
  | nil => rfl
  | cons p ps ih =>
      simp only [List.any_cons, Bool.or_eq_false_iff] at h
      have hp : p.1 ≠ k := by simpa using h.1
      simp only [dictLookup, hp, if_false]
      exact ih h.2

theorem dictLookup_append_right (d d' : List (String × OutlierVal))
    (k : String) (h : dictLookup d k = none) :
    dictLookup (d ++ d') k = dictLookup d' k := by
  induction d with
  | nil => rfl
  | cons p ps ih =>
      by_cases hp : p.1 = k
      · simp [dictLookup, hp] at h
      · simp only [dictLookup, hp, if_false] at h
        simp only [List.cons_append, dictLookup, hp, if_false]
        exact ih h

theorem dictLookup_dictInsert_self (d : List (String × OutlierVal))
    (k : String) (v : OutlierVal) :
    dictLookup (dictInsert d k v) k = some v := by
  unfold dictInsert
  cases h : d.any (fun p => p.1 == k) with
  | true =>
      simp only [if_true]
      exact dictLookup_map_replace d k v h
  | false =>
      simp only [Bool.false_eq_true, if_false]
      rw [dictLookup_append_right d _ k
        (dictLookup_eq_none_of_any_false d k h)]
      simp [dictLookup]

theorem dictLookup_dictInsert_ne (d : List (String × OutlierVal))
    {k k' : String} (h : k ≠ k') (v : OutlierVal) :
    dictLookup (dictInsert d k' v) k = dictLookup d k := by
  unfold dictInsert
  cases ha : d.any (fun p => p.1 == k') with
  | true =>
      simp only [if_true]
      clear ha
      induction d with
      | nil => rfl
      | cons p ps ih =>
          by_cases hp : p.1 = k'
          · have hpb : (p.1 == k') = true := by simpa using hp
            have hpk : p.1 ≠ k := by rw [hp]; exact fun e => h e.symm
            have hk'k : k' ≠ k := fun e => h e.symm
            simp only [List.map_cons, hpb, if_true, dictLookup, hk'k, hpk,
              if_false]
            exact ih
          · have hpb : (p.1 == k') = false := by simpa using hp
            simp only [List.map_cons, hpb, Bool.false_eq_true, if_false,
              dictLookup]
            by_cases hpk : p.1 = k
            · simp [hpk]
            · simp only [hpk, if_false]
              exact ih
  | false =>
      simp only [Bool.false_eq_true, if_false]
      clear ha
      induction d with
      | nil =>
          simp only [List.nil_append, dictLookup]
          rw [if_neg (fun e => h e.symm)]
      | cons p ps ih =>
          simp only [List.cons_append, dictLookup]
          by_cases hpk : p.1 = k
          · simp [hpk]
          · simp only [hpk, if_false]
            exact ih

theorem dictLookup_foldl_dictInsert_not_mem (f : String → OutlierVal)
    (cs : List String) (c : String) (h : c ∉ cs) :
    ∀ d, dictLookup (cs.foldl (fun d col => dictInsert d col (f col)) d) c
      = dictLookup d c := by
  induction cs with
  | nil => intro d; rfl
  | cons c' cs' ih =>
      intro d
      have hne : c ≠ c' := fun e => h (e ▸ List.mem_cons_self _ _)
      have h2 : c ∉ cs' := fun hm => h (List.mem_cons_of_mem _ hm)
      simp only [List.foldl_cons]
      rw [ih h2, dictLookup_dictInsert_ne _ hne]

theorem dictLookup_foldl_dictInsert_mem (f : String → OutlierVal)
    (cs : List String) (c : String) (h : c ∈ cs) :
    ∀ d, dictLookup (cs.foldl (fun d col => dictInsert d col (f col)) d) c
      = some (f c) := by
  induction cs with
  | nil => cases h
  | cons c' cs' ih =>
      intro d
      simp only [List.foldl_cons]
      by_cases hm : c ∈ cs'
      · exact ih hm _
      · have hcc : c = c' := by
          rcases List.mem_cons.mp h with h1 | h2
          · exact h1
          · exact absurd h2 hm
        subst hcc
        rw [dictLookup_foldl_dictInsert_not_mem f cs' c hm,
          dictLookup_dictInsert_self]

theorem detect_outliers_lookup_temp (df : Table) (temp_cols : List String)
    (energy_col col : String) (h1 : col ∈ temp_cols)
    (h2 : col ≠ energy_col) :
    dictLookup (detect_outliers df temp_cols energy_col) col
      = some (tempOutlierEntry df col) := by
  unfold detect_outliers
  rw [dictLookup_dictInsert_ne _ h2,
    dictLookup_foldl_dictInsert_mem (fun col => tempOutlierEntry df col)
      temp_cols col h1]

theorem detect_outliers_lookup_energy (df : Table) (temp_cols : List String)
    (energy_col : String) :
    dictLookup (detect_outliers df temp_cols energy_col) energy_col
      = some (energyOutlierEntry df energy_col) := by
  unfold detect_outliers
  exact dictLookup_dictInsert_self _ _ _

/-- Claim C7: `detect_outliers` reports, per requested temperature column,
the count of values above 130 or below -50; for the demand column the count
of negative values; the sentinel `"Column not found"` for an absent column
and `"Column <name> is not numeric"` for a present non-numeric one. -/
theorem detect_outliers_spec (df : Table) (temp_cols : List String)
    (energy_col : String) :
    (∀ col ∈ temp_cols, col ≠ energy_col →
        dictLookup (detect_outliers df temp_cols energy_col) col
          = some (tempOutlierEntry df col)) ∧
    (dictLookup (detect_outliers df temp_cols energy_col) energy_col
        = some (energyOutlierEntry df energy_col)) ∧
    (∀ col, df.col? col = none →
        tempOutlierEntry df col = .msg "Column not found" ∧
        energyOutlierEntry df col = .msg "Column not found") ∧
    (∀ col vs, df.col? col = some (.numeric vs) →
        tempOutlierEntry df col
          = .count ((vs.filter isTempRuleOutlier).length) ∧
        energyOutlierEntry df col
          = .count ((vs.filter isNegDemand).length)) ∧
    (∀ col vs, df.col? col = some (.dates vs) →
        tempOutlierEntry df col
          = .msg ("Column " ++ col ++ " is not numeric") ∧
        energyOutlierEntry df col
          = .msg ("Column " ++ col ++ " is not numeric")) := by
  refine ⟨fun col h1 h2 => detect_outliers_lookup_temp df temp_cols energy_col col h1 h2,
    detect_outliers_lookup_energy df temp_cols energy_col, ?_, ?_, ?_⟩
  · intro col h
    constructor <;> simp [tempOutlierEntry, energyOutlierEntry, h]
  · intro col vs h
    constructor <;> simp [tempOutlierEntry, energyOutlierEntry, h]
  · intro col vs h
    constructor <;> simp [tempOutlierEntry, energyOutlierEntry, h]

/-- The demo table of the spec's §8 test vector: temperatures
`[70, 135, 65]` and demand `[20000, 25000, -100]`. -/
def dfDemo : Table :=
  ⟨3, [("temp_max_F", .numeric [some 70, some 135, some 65]),
       ("energy_demand_MW", .numeric [some 20000, some 25000, some (-100)]),
       ("date", .dates [some 0, some 1, some 2])]⟩

/-- Witness for claim C7 on `dfDemo`: one implausible temperature, one
negative demand value, sentinel for an absent column. -/
theorem detect_outliers_spec_witness :
    dictLookup (detect_outliers dfDemo ["temp_max_F", "temp_min_F"]
        "energy_demand_MW") "temp_max_F" = some (.count 1) ∧
    dictLookup (detect_outliers dfDemo ["temp_max_F", "temp_min_F"]
        "energy_demand_MW") "temp_min_F"
      = some (.msg "Column not found") ∧
    dictLookup (detect_outliers dfDemo ["temp_max_F", "temp_min_F"]
        "energy_demand_MW") "energy_demand_MW" = some (.count 1) := by
  obtain ⟨h1, h2, -, -, -⟩ :=
    detect_outliers_spec dfDemo ["temp_max_F", "temp_min_F"] "energy_demand_MW"
  refine ⟨?_, ?_, ?_⟩
  · rw [h1 "temp_max_F" (by decide) (by decide)]; decide
  · rw [h1 "temp_min_F" (by decide) (by decide)]; decide
  · rw [h2]; decide

/-- The result record of `check_data_freshness` (`analysis.py` lines
51, 63, 78-84): the optional fields absent from a given return dict are
`none`. -/
structure Freshness where
  latest_date : Option Int
  days_ago : Option Int
  is_fresh : Bool
  error : Option String
  total_records : Option Nat
  valid_dates : Option Nat
deriving DecidableEq, Repr

/-- The date values of a column as seen by `check_data_freshness`
(`analysis.py` lines 55-58): a datetime column is used as-is.  The
pipeline only ever hands this function columns already converted by
`pd.to_datetime` (`pipeline.py` lines 113, 159); the numeric-coercion
branch (pandas reads numbers as epoch instants, all valid) is modelled at
day granularity by the floor and is exercised by no claim. -/
def colToDates : Col → List (Option Int)
  | .dates vs => vs
  | .numeric vs => vs.map (fun v => v.map (fun q => Int.floor q))

/-- Source `check_data_freshness` (`analysis.py` lines 42-92) with the call to
`datetime.now(timezone.utc)` made an explicit `nowDay` parameter and dates
at day granularity (so the `tz_localize('UTC')` step is a no-op and
`.days` of the difference is plain subtraction).  The missing-column
`ValueError` is the `Except.error` case; the freshness threshold is the
hardcoded `2` of line 76. -/
def check_data_freshness (df : Table) (date_col : String) (nowDay : Int) :
    Except String Freshness :=
  match df.col? date_col with
  | none => .error (date_col ++ " column not found in DataFrame")
  | some c =>
      if df.nRows = 0 then
        .ok ⟨none, none, false, some "DataFrame is empty", none, none⟩
      else
        match ((colToDates c).filterMap id).max? with
        | none =>
            .ok ⟨none, none, false, some "No valid dates found", none, none⟩
        | some latest =>
            .ok ⟨some latest, some (nowDay - latest),
                 decide (nowDay - latest ≤ 2), none, some df.nRows,
                 some ((colToDates c).filterMap id).length⟩

/-- Modelled from the spec: `check_data_freshness` as claim C5 words it,
with `freshnessThresholdDays` an explicit caller-supplied parameter; it
differs from the source function only in the threshold comparison. -/
def check_data_freshness_spec (df : Table) (date_col : String)
    (nowDay threshold : Int) : Except String Freshness :=
  match df.col? date_col with
  | none => .error (date_col ++ " column not found in DataFrame")
  | some c =>
      if df.nRows = 0 then
        .ok ⟨none, none, false, some "DataFrame is empty", none, none⟩
      else
        match ((colToDates c).filterMap id).max? with
        | none =>
            .ok ⟨none, none, false, some "No valid dates found", none, none⟩
        | some latest =>
            .ok ⟨some latest, some (nowDay - latest),
                 decide (nowDay - latest ≤ threshold), none, some df.nRows,
                 some ((colToDates c).filterMap id).length⟩

/-- The report dict built by `generate_quality_report`
(`analysis.py` lines 110-119). -/
structure QualityReport where
  total_rows : Nat
  total_columns : Nat
  columns : List String
  missing_values : List (String × Nat)
  outliers : List (String × OutlierVal)
  freshness : Freshness
deriving DecidableEq, Repr

/-- A quality report or the `{"error": ...}` dict the `except` branch of
`generate_quality_report` returns (`analysis.py` line 122). -/
inductive ReportResult where
  | ok (r : QualityReport)
  | errorReport (msg : String)
deriving DecidableEq, Repr

/-- The value stage of `generate_quality_report` (`analysis.py` lines
109-122; the argument-type guard of lines 97-107 is modelled separately as
`quality_report_type_check`).  Of the three sub-reports only
`check_data_freshness` can raise on a well-typed DataFrame, so the
`except Exception` branch fires exactly when it does. -/
def generate_quality_report (df : Table) (temp_cols : List String)
    (energy_col date_col : String) (nowDay : Int) : ReportResult :=
  match check_data_freshness df date_col nowDay with
  | .error e => .errorReport ("Error generating report: " ++ e)
  | .ok fr =>
      .ok ⟨df.nRows, df.cols.length, df.cols.map Prod.fst,
           check_missing_values df,
           detect_outliers df temp_cols energy_col, fr⟩

/-- Claim C10: a missing date column makes `check_data_freshness` raise
`ValueError`, and `generate_quality_report` (well-typed arguments) catches
it and returns the error dict instead of propagating. -/
theorem quality_report_catches_value_error (df : Table)
    (temp_cols : List String) (energy_col date_col : String) (nowDay : Int)
    (h : df.col? date_col = none) :
    check_data_freshness df date_col nowDay
      = .error (date_col ++ " column not found in DataFrame") ∧
    generate_quality_report df temp_cols energy_col date_col nowDay
      = .errorReport ("Error generating report: "
          ++ (date_col ++ " column not found in DataFrame")) := by
  have h1 : check_data_freshness df date_col nowDay
      = .error (date_col ++ " column not found in DataFrame") := by
    unfold check_data_freshness
    rw [h]
  refine ⟨h1, ?_⟩
  unfold generate_quality_report
  rw [h1]

/-- A table with no `date` column. -/
def dfNoDate : Table := ⟨2, [("temp_max_F", .numeric [some 70, some 60])]⟩

/-- Witness for claim C10 on `dfNoDate`. -/
theorem quality_report_catches_value_error_witness :
    generate_quality_report dfNoDate [] "energy_demand_MW" "date" 0
      = .errorReport ("Error generating report: "
          ++ ("date" ++ " column not found in DataFrame")) :=
  (quality_report_catches_value_error dfNoDate [] "energy_demand_MW"
    "date" 0 rfl).2

/-- Claim C5 (amended): with at least one valid date, the verdict is
`is_fresh = (nowDay - latest ≤ 2)` with the 2-day threshold hardcoded in
`check_data_freshness`, which takes no threshold argument. -/
theorem freshness_verdict (df : Table) (date_col : String) (nowDay : Int)
    (c : Col) (latest : Int) (hc : df.col? date_col = some c)
    (hn : ¬ df.nRows = 0)
    (hm : ((colToDates c).filterMap id).max? = some latest) :
    check_data_freshness df date_col nowDay
      = .ok ⟨some latest, some (nowDay - latest),
             decide (nowDay - latest ≤ 2), none, some df.nRows,
             some ((colToDates c).filterMap id).length⟩ := by
  simp only [check_data_freshness, hc, hm]
  rw [if_neg hn]

/-- A one-row table whose only date is day 98. -/
def dfFresh : Table := ⟨1, [("date", .dates [some 98])]⟩

/-- A one-row table whose only date is day 97. -/
def dfStale : Table := ⟨1, [("date", .dates [some 97])]⟩

/-- Witness for claim C5: seen from day 100, a latest date exactly 2 days
old is fresh and one 3 days old is not. -/
theorem freshness_verdict_witness :
    check_data_freshness dfFresh "date" 100
      = .ok ⟨some 98, some 2, true, none, some 1, some 1⟩ ∧
    check_data_freshness dfStale "date" 100
      = .ok ⟨some 97, some 3, false, none, some 1, some 1⟩ := by
  constructor
  · rw [freshness_verdict dfFresh "date" 100 (.dates [some 98]) 98 rfl
      (by decide) (by decide)]
    rfl
  · rw [freshness_verdict dfStale "date" 100 (.dates [some 97]) 97 rfl
      (by decide) (by decide)]
    rfl

/-- Counterexample to claim C5 as stated: `check_data_freshness` has no
threshold parameter; its verdict is always `days_ago ≤ 2`.  A caller
choosing threshold 1 (the spec's example for energy data) would judge a
2-day-old latest date stale, but the code reports it fresh. -/
theorem freshness_threshold_counterexample :
    check_data_freshness dfFresh "date" 100
      = .ok ⟨some 98, some 2, true, none, some 1, some 1⟩ ∧
    check_data_freshness_spec dfFresh "date" 100 1
      = .ok ⟨some 98, some 2, false, none, some 1, some 1⟩ ∧
    ¬ ((2 : Int) ≤ 1) := by
  refine ⟨rfl, rfl, by decide⟩

/-- Insertion into a sorted list of rationals. -/
def insertSorted (x : ℚ) : List ℚ → List ℚ
  | [] => [x]
  | y :: ys => if x ≤ y then x :: y :: ys else y :: insertSorted x ys

/-- Insertion sort over rationals. -/
def sortQ (l : List ℚ) : List ℚ := l.foldr insertSorted []

/-- Modelled from the spec: the `num/den`-quantile of the sorted values
with linear interpolation (the convention of `Series.quantile`, spec §4.5
"`Q1`, `Q3` are the 25th/75th percentiles"): the position is
`(num/den) * (n-1)`, split into integer part `i` and fractional part
`r/den`.  `analysis.py` computes no quantiles — IQR statistics appear only
in the out-of-scope dashboard — so this follows the spec's words and is
used only to exhibit what the quality report would have to contain. -/
def quantileAt (s : List ℚ) (num den : Nat) : ℚ :=
  let n := s.length
  if n = 0 then 0
  else
    let t := num * (n - 1)
    let i := t / den
    let r := t % den
    let a := s.getD i 0
    if i + 1 < n then a + ((r : ℚ) / (den : ℚ)) * (s.getD (i + 1) 0 - a)
    else a

/-- Modelled from the spec (§4.5): the count of values outside
`[Q1 - 1.5 * IQR, Q3 + 1.5 * IQR]`. -/
def iqrOutlierCount (vals : List ℚ) : Nat :=
  let q1 := quantileAt (sortQ vals) 1 4
  let q3 := quantileAt (sortQ vals) 3 4
  let iqr := q3 - q1
  (vals.filter (fun v =>
    decide (v < q1 - 3 / 2 * iqr) || decide (v > q3 + 3 / 2 * iqr))).length

/-- Temperatures `[10, 11, 12, 13, 14]`: no IQR outlier. -/
def dfIqrA : Table :=
  ⟨5, [("temp_max_F", .numeric [some 10, some 11, some 12, some 13, some 14]),
       ("date", .dates [some 0, some 0, some 0, some 0, some 0])]⟩

/-- Temperatures `[10, 11, 12, 13, 100]`: one IQR outlier (100 lies
outside `[8, 16]`), still far inside the rule-based bounds `(-50, 130)`. -/
def dfIqrB : Table :=
  ⟨5, [("temp_max_F", .numeric [some 10, some 11, some 12, some 13, some 100]),
       ("date", .dates [some 0, some 0, some 0, some 0, some 0])]⟩

/-- Counterexample to claim C4 as stated: two tables whose `temp_max_F`
columns have different IQR outlier counts (0 versus 1) produce entirely
identical quality reports, so the report cannot contain an IQR-based
outlier count for the column — `generate_quality_report` computes
rule-based counts only. -/
theorem quality_report_iqr_counterexample :
    generate_quality_report dfIqrA ["temp_max_F"] "energy_demand_MW" "date" 0
      = generate_quality_report dfIqrB ["temp_max_F"] "energy_demand_MW"
          "date" 0 ∧
    iqrOutlierCount [10, 11, 12, 13, 14] = 0 ∧
    iqrOutlierCount [10, 11, 12, 13, 100] = 1 := by
  refine ⟨rfl, ?_, ?_⟩
  · norm_num [iqrOutlierCount, quantileAt, sortQ, insertSorted]
  · norm_num [iqrOutlierCount, quantileAt, sortQ, insertSorted]

/-- Claim C4 (amended): the report's `outliers` section carries, for each
requested numeric temperature column, only the single rule-based count
(and sentinel strings otherwise); no IQR-based count is part of the
report. -/
theorem quality_report_outliers_rule_based_only (df : Table)
    (temp_cols : List String) (energy_col date_col : String) (nowDay : Int)
    (r : QualityReport)
    (h : generate_quality_report df temp_cols energy_col date_col nowDay
        = .ok r) :
    r.outliers = detect_outliers df temp_cols energy_col ∧
    (∀ col ∈ temp_cols, col ≠ energy_col → ∀ vs,
        df.col? col = some (.numeric vs) →
        dictLookup r.outliers col
          = some (.count ((vs.filter isTempRuleOutlier).length))) := by
  have hout : r.outliers = detect_outliers df temp_cols energy_col := by
    unfold generate_quality_report at h
    cases hf : check_data_freshness df date_col nowDay with
    | error e =>
        rw [hf] at h
        exact ReportResult.noConfusion h
    | ok fr =>
        rw [hf] at h
        injection h with h'
        rw [← h']
  refine ⟨hout, ?_⟩
  intro col hmem hne vs hv
  rw [hout, detect_outliers_lookup_temp df temp_cols energy_col col hmem hne]
  simp [tempOutlierEntry, hv]

/-- The quality report of `dfDemo` as `generate_quality_report` builds it
on day 0. -/
def rDemo : QualityReport :=
  ⟨3, 3, ["temp_max_F", "energy_demand_MW", "date"],
   [("temp_max_F", 0), ("energy_demand_MW", 0), ("date", 0)],
   detect_outliers dfDemo ["temp_max_F"] "energy_demand_MW",
   ⟨some 2, some (-2), true, none, some 3, some 3⟩⟩

/-- Witness for claim C4 on `dfDemo`: the produced report's outlier entry
for `temp_max_F` is the bare rule-based count `1`. -/
theorem quality_report_outliers_rule_based_only_witness :
    generate_quality_report dfDemo ["temp_max_F"] "energy_demand_MW"
        "date" 0 = .ok rDemo ∧
    dictLookup rDemo.outliers "temp_max_F" = some (.count 1) := by
  have h1 : generate_quality_report dfDemo ["temp_max_F"]
      "energy_demand_MW" "date" 0 = .ok rDemo := rfl
  refine ⟨h1, ?_⟩
  have h2 := (quality_report_outliers_rule_based_only dfDemo ["temp_max_F"]
    "energy_demand_MW" "date" 0 rDemo h1).2 "temp_max_F"
    (by decide) (by decide) [some 70, some 135, some 65] rfl
  rw [h2]
  decide

/-- The runtime type of a Python argument, as far as the `isinstance`
guards of `generate_quality_report` (`analysis.py` lines 97-107)
distinguish them. -/
inductive PyTy where
  | dataFrame
  | pyList
  | pyTuple
  | pyStr
  | pyOther
deriving DecidableEq

/-- Outcome of the argument-type guard: pass, or an immediately raised
`TypeError`. -/
inductive CheckResult where
  | ok
  | typeError (msg : String)
deriving DecidableEq

/-- The argument-type guard of `generate_quality_report`
(`analysis.py` lines 97-107), which runs before the `try` block:
`isinstance(df, pd.DataFrame)`, `isinstance(temp_cols, (list, tuple))`,
`isinstance(energy_col, str)`, `isinstance(date_col, str)`. -/
def quality_report_type_check (df temp_cols energy_col date_col : PyTy) :
    CheckResult :=
  if ¬ df = PyTy.dataFrame then
    .typeError "Input must be a pandas DataFrame"
  else if ¬ (temp_cols = PyTy.pyList ∨ temp_cols = PyTy.pyTuple) then
    .typeError "temp_cols must be a list or tuple"
  else if ¬ energy_col = PyTy.pyStr then
    .typeError "energy_col must be a string"
  else if ¬ date_col = PyTy.pyStr then
    .typeError "date_col must be a string"
  else .ok

/-- Counterexample to claim C8 as stated: a `tuple` for the
temperature-columns argument is not a list, yet the guard accepts it
(`isinstance(temp_cols, (list, tuple))`), so "raises exactly when ... not
a list" fails at this input. -/
theorem quality_report_type_check_counterexample :
    quality_report_type_check PyTy.dataFrame PyTy.pyTuple PyTy.pyStr
        PyTy.pyStr = CheckResult.ok ∧
    PyTy.pyTuple ≠ PyTy.pyList ∧
    ¬ ((quality_report_type_check PyTy.dataFrame PyTy.pyTuple PyTy.pyStr
          PyTy.pyStr ≠ CheckResult.ok)
        ↔ (PyTy.dataFrame ≠ PyTy.dataFrame ∨ PyTy.pyTuple ≠ PyTy.pyList
            ∨ PyTy.pyStr ≠ PyTy.pyStr ∨ PyTy.pyStr ≠ PyTy.pyStr)) := by
  decide

/-- Claim C8 (amended): the guard raises immediately exactly when the
table argument is not a DataFrame, the temperature-columns argument is
neither a list nor a tuple, or the demand-column or date-column argument
is not a string; on all well-typed arguments it passes. -/
theorem quality_report_type_check_spec :
    ∀ df temp_cols energy_col date_col : PyTy,
      quality_report_type_check df temp_cols energy_col date_col
          ≠ CheckResult.ok
        ↔ (df ≠ PyTy.dataFrame
            ∨ (temp_cols ≠ PyTy.pyList ∧ temp_cols ≠ PyTy.pyTuple)
            ∨ energy_col ≠ PyTy.pyStr ∨ date_col ≠ PyTy.pyStr) := by
  intro df temp_cols energy_col date_col
  cases df <;> cases temp_cols <;> cases energy_col <;> cases date_col <;>
    decide

end EnergyPipeline
